import Mathlib

/-!
Verification development for the product-ingestion service.

The definitions below are a shallow embedding of the job pipeline:
the upload checkpoint record and its repository operations
(`app/repository/upload_repository.py`), the Redis progress cache and the
status read path (`app/services/csv_import_service.py`), the batch product
operations (`app/repository/product_repository.py`), and the two Celery
tasks (`app/tasks/product_tasks.py`).  Machine integers are modelled as
`Nat`, Python floats as exact rationals, Redis as an `Option` of the cached
entry, and the catalog store as a key-indexed optional map (the key being
the lower-cased SKU, mirroring the unique index on `lower(sku)`).
-/

namespace ProductIngestion

/-- Job status values stored in the durable upload record
(`UploadStatus` in `app/models/upload.py`). -/
inductive UploadStatus where
  | pending
  | processing
  | completed
  | failed
deriving DecidableEq, Repr

/-- The durable upload/checkpoint record (`Upload` in `app/models/upload.py`).
`completedAt` abstracts the timestamp to whether it has been set. -/
structure Upload where
  status : UploadStatus
  processedRecords : Nat
  totalRecords : Nat
  progress : ℚ
  completedAt : Bool
deriving DecidableEq, Repr

/-- A freshly created upload record (`UploadRepository.create_upload`):
PENDING with zero counters and zero progress. -/
def freshUpload : Upload :=
  { status := .pending, processedRecords := 0, totalRecords := 0,
    progress := 0, completedAt := false }

/-- Embedding of `UploadSyncRepository.mark_processing`. -/
def markProcessing (totalRecords : Nat) (initialProcessed : Option Nat)
    (u : Upload) : Upload :=
  let u' := { u with status := UploadStatus.processing,
                     totalRecords := totalRecords, completedAt := false }
  if totalRecords = 0 then
    { u' with processedRecords := 0, progress := 0 }
  else
    let initialValue :=
      match initialProcessed with
      | none => min u.processedRecords totalRecords
      | some i => min i totalRecords
    { u' with processedRecords := initialValue,
              progress := (initialValue : ℚ) / (totalRecords : ℚ) * 100 }

/-- Embedding of `UploadSyncRepository.update_progress`. -/
def updateProgress (processedRecords totalRecords : Nat) (progress : ℚ)
    (u : Upload) : Upload :=
  { u with processedRecords := processedRecords, totalRecords := totalRecords,
           progress := progress, status := UploadStatus.processing }

/-- Embedding of `UploadSyncRepository.mark_completed`: sets status,
`progress = 100` and the completion timestamp; the counters are untouched. -/
def markCompleted (u : Upload) : Upload :=
  { u with status := UploadStatus.completed, progress := 100,
           completedAt := true }

/-- Embedding of `UploadSyncRepository.mark_failed`. -/
def markFailed (u : Upload) : Upload :=
  { u with status := UploadStatus.failed, completedAt := true }

/-- One cached progress entry, the JSON record written to Redis under
`upload:{task_id}` (`_update_redis` in `app/tasks/product_tasks.py`). -/
structure CacheEntry where
  status : String
  processed : Nat
  total : Nat
deriving DecidableEq, Repr

/-- The response of the progress read path
(`CSVImportService.get_status`). -/
structure StatusResponse where
  status : String
  processedRecords : Nat
  totalRecords : Nat
  progressPercentage : ℚ
deriving DecidableEq, Repr

/-- Embedding of `CSVImportService._calculate_progress`. -/
def calculateProgress (processed total : Nat) : ℚ :=
  if total = 0 then 0 else (processed : ℚ) / (total : ℚ) * 100

/-- The Python builtin `round(x, 2)` modelled on exact rationals (ties, which Python
resolves to even, are resolved upward here; no claim depends on a tie). -/
def roundTo2 (q : ℚ) : ℚ := ((q * 100 + 1 / 2).floor : ℚ) / 100

/-- Embedding of `CSVImportService._map_status`. -/
def mapStatus : UploadStatus → String
  | .pending => "pending"
  | .processing => "in_progress"
  | .completed => "completed"
  | .failed => "failed"

/-- Embedding of `CSVImportService.get_status`: cache first, durable store
second, `UploadNotFoundError` when the job id is known to neither. -/
def getStatus (cache : Option CacheEntry) (store : Option Upload) :
    Except String StatusResponse :=
  match cache with
  | some payload =>
      .ok { status := payload.status,
            processedRecords := payload.processed,
            totalRecords := payload.total,
            progressPercentage :=
              roundTo2 (calculateProgress payload.processed payload.total) }
  | none =>
      match store with
      | none => .error "UploadNotFoundError"
      | some upload =>
          .ok { status := mapStatus upload.status,
                processedRecords := upload.processedRecords,
                totalRecords := upload.totalRecords,
                progressPercentage :=
                  roundTo2 (calculateProgress upload.processedRecords
                    upload.totalRecords) }

/-- Whitespace test used by the string helpers below. -/
def isSpaceChar (c : Char) : Bool :=
  c = ' ' || c = '\t' || c = '\n' || c = '\r' || c = '\x0b' || c = '\x0c'

/-- The Python method `str.strip()` on the underlying character list (kernel-reducible,
unlike `String.trim`). -/
def pyStrip (s : String) : String :=
  ⟨((s.data.dropWhile isSpaceChar).reverse.dropWhile isSpaceChar).reverse⟩

/-- Lower-case one character (ASCII, as the SKUs in scope are). -/
def lowerChar (c : Char) : Char :=
  if 65 ≤ c.toNat ∧ c.toNat ≤ 90 then Char.ofNat (c.toNat + 32) else c

/-- The Python method `str.lower()` on the underlying character list. -/
def pyLower (s : String) : String := ⟨s.data.map lowerChar⟩

/-- One catalog product row as handled by the batch operations
(`Product` restricted to the fields `bulk_upsert` reads and writes). -/
structure ProductRow where
  name : String
  sku : String
  description : String
  active : Bool
deriving DecidableEq, Repr

/-- The normalisation `bulk_upsert` applies to each incoming dict:
the SKU is lower-cased, every other field is kept. -/
def normalizeRow (r : ProductRow) : ProductRow := { r with sku := pyLower r.sku }

/-- The catalog store, keyed by lower-cased SKU (the unique index
`lower(sku)` that `on_conflict_do_update` targets). -/
def Store := String → Option ProductRow

/-- The `deduped` dict built by `ProductSyncRepository.bulk_upsert`,
as the left fold the Python loop performs: later occurrences of a
lower-cased SKU overwrite earlier ones. -/
def dedupFold (batch : List ProductRow) : String → Option ProductRow :=
  batch.foldl
    (fun acc r =>
      let n := normalizeRow r
      fun k => if k = n.sku then some n else acc k)
    (fun _ => none)

/-- The last occurrence in the batch whose lower-cased SKU is `k`
(the value `deduped[k]` ends up holding). -/
def lastWins (batch : List ProductRow) (k : String) : Option ProductRow :=
  ((batch.map normalizeRow).filter (fun r => r.sku = k)).getLast?

/-- Conflict resolution of the upsert statement: an existing row keeps its
key (`sku`) while `name`, `description` and `active` are overwritten; a
fresh key inserts the normalised row as-is. -/
def mergeRow : Option ProductRow → ProductRow → ProductRow
  | none, r => r
  | some old, r =>
      { old with name := r.name, description := r.description,
                 active := r.active }

/-- Effect of `ProductSyncRepository.bulk_upsert` on the catalog store. -/
def bulkUpsertStore (batch : List ProductRow) (store : Store) : Store :=
  fun k =>
    match dedupFold batch k with
    | none => store k
    | some r => some (mergeRow (store k) r)

/-- Distinct lower-cased SKUs of a batch (the key set of `deduped`). -/
def dedupKeys (batch : List ProductRow) : List String :=
  (batch.map (fun r => pyLower r.sku)).dedup

/-- Return value of `bulk_upsert`: 0 on an empty batch (before any write),
otherwise the number of deduplicated payload rows. -/
def bulkUpsertCount (batch : List ProductRow) : Nat :=
  if batch = [] then 0 else (dedupKeys batch).length

/-- One raw CSV data row as the `csv.DictReader` presents it; a missing
cell is the empty string (`row.get(..., "")`). -/
structure InputRow where
  name : String
  sku : String
  description : String
deriving DecidableEq, Repr

/-- Embedding of `_build_product_payload`: trim the fields, drop rows whose
name or SKU is blank, and mark every surviving row active. -/
def buildProductPayload (chunk : List InputRow) : List ProductRow :=
  chunk.filterMap (fun row =>
    let name := pyStrip row.name
    let sku := pyStrip row.sku
    let description := pyStrip row.description
    if name = "" ∨ sku = "" then none
    else some { name := name, sku := sku, description := description,
                active := true })

/-- Design constant `MAX_TASK_RETRIES` of `app/tasks/product_tasks.py`. -/
def maxTaskRetries : Nat := 3

/-- Design constant `MAX_RETRY_DELAY_SECONDS`. -/
def maxRetryDelaySeconds : Nat := 60

/-- Design constant `DELETE_CHUNK_SIZE`. -/
def deleteChunkSize : Nat := 10000

/-- One webhook task enqueued on completion (`celery_app.send_task` of
`trigger_webhooks`); `dataCount` is the single integer the payload builder
stores under `total_products` or `deleted_count`. -/
structure EventMsg where
  eventType : String
  dataCount : Nat
deriving DecidableEq, Repr

/-- Embedding of `_schedule_retry`: when retries remain, the computed
countdown together with the `"retrying"` cache entry it writes; otherwise
the `MaxRetriesExceededError` that propagates to the caller. -/
def scheduleRetry (maxRetries currentRetry processed total : Nat) :
    Except String (Nat × CacheEntry) :=
  if maxRetries ≤ currentRetry then
    .error "MaxRetriesExceededError"
  else
    let attempt := currentRetry + 1
    let delay := min maxRetryDelaySeconds (2 ^ attempt)
    .ok (delay, { status := "retrying", processed := processed, total := total })

/-- The `except` handler shared by both tasks: try `_schedule_retry`; on
`MaxRetriesExceededError` mark the job FAILED (with the `"failed"` cache
write of `_mark_failed`). `Sum.inr` carries the scheduled retry. -/
def handleChunkFailure (currentRetry processed total : Nat) (u : Upload) :
    (Upload × CacheEntry) ⊕ (Nat × CacheEntry) :=
  match scheduleRetry maxTaskRetries currentRetry processed total with
  | .ok r => .inr r
  | .error _ =>
      .inl (markFailed u, { status := "failed", processed := processed,
                            total := total })

/-- Accumulator recursion of `_iter_chunks`: append each row to the open
chunk and yield the chunk once its length reaches the chunk size; a
non-empty leftover chunk is yielded at the end. -/
def iterChunksAux (c : Nat) : List InputRow → List InputRow →
    List (List InputRow)
  | chunk, [] => if chunk = [] then [] else [chunk]
  | chunk, r :: rest =>
      let chunk' := chunk ++ [r]
      if c ≤ chunk'.length then chunk' :: iterChunksAux c [] rest
      else iterChunksAux c chunk' rest

/-- Embedding of `_iter_chunks` applied to the whole row stream. -/
def iterChunks (c : Nat) (rows : List InputRow) : List (List InputRow) :=
  iterChunksAux c [] rows

/-- Mutable state of the chunk loop inside `import_products_from_csv`:
the local variables `remaining_replay` and `processed_records`, the durable
record, the cache, the catalog store and the list of checkpoint states
written so far (in order). -/
structure LoopState where
  replay : Nat
  processed : Nat
  upload : Upload
  cache : Option CacheEntry
  store : Store
  trace : List Upload

/-- The write part of one loop iteration: upsert the surviving rows,
advance `processed_records` capped at the total, persist the checkpoint
and overwrite the cache. -/
def chunkWrite (total : Nat) (products : List ProductRow) (s : LoopState) :
    LoopState :=
  let store := bulkUpsertStore products s.store
  let processed := min (s.processed + products.length) total
  let progress := calculateProgress processed total
  let upload := updateProgress processed total progress s.upload
  { replay := 0, processed := processed, upload := upload,
    cache := some { status := "in_progress", processed := processed,
                    total := total },
    store := store, trace := s.trace ++ [upload] }

/-- One iteration of the `for chunk in _iter_chunks(reader)` loop:
filter the chunk, skip or trim it while the resume replay budget lasts,
then perform the write step. -/
def importChunkStep (total : Nat) (s : LoopState) (chunk : List InputRow) :
    LoopState :=
  let products := buildProductPayload chunk
  if products = [] then s
  else if s.replay ≠ 0 then
    if products.length ≤ s.replay then
      { s with replay := s.replay - products.length }
    else
      let rest := products.drop s.replay
      if rest = [] then { s with replay := 0 }
      else chunkWrite total rest { s with replay := 0 }
  else chunkWrite total products s

/-- Observable outcome of one task run. -/
structure ImportResult where
  upload : Upload
  cache : Option CacheEntry
  store : Store
  events : List EventMsg
  trace : List Upload

/-- Body of `import_products_from_csv` once the total is resolved:
transition to PROCESSING, short-circuit empty or already-finished jobs,
then stream the chunks and finish with `_mark_completed` and the
completion event. `trace` collects the durable checkpoint states in write
order. -/
def importRunWithTotal (c : Nat) (rows : List InputRow) (u0 : Upload)
    (store0 : Store) (total : Nat) : ImportResult :=
  let processed0 := u0.processedRecords
  let u1 := markProcessing total (some processed0) u0
  let processed := min processed0 total
  if total = 0 ∨ total ≤ processed then
    let u2 := markCompleted u1
    { upload := u2,
      cache := some { status := "completed", processed := processed,
                      total := total },
      store := store0, events := [], trace := [u1, u2] }
  else
    let s0 : LoopState :=
      { replay := processed, processed := processed, upload := u1,
        cache := some { status := "in_progress", processed := processed,
                        total := total },
        store := store0, trace := [u1] }
    let s := (iterChunks c rows).foldl (importChunkStep total) s0
    let u2 := markCompleted s.upload
    { upload := u2,
      cache := some { status := "completed", processed := s.processed,
                      total := total },
      store := s.store,
      events := [{ eventType := "product_upload_complete",
                   dataCount := s.processed }],
      trace := s.trace ++ [u2] }

/-- Embedding of the happy path of `import_products_from_csv` (the file
exists and no storage error is raised): the total is the stored one when
nonzero (resumed job), otherwise the data-row count of the file. -/
def importProductsFromCsv (c : Nat) (rows : List InputRow) (u0 : Upload)
    (store0 : Store) : ImportResult :=
  importRunWithTotal c rows u0 store0
    (if u0.totalRecords ≠ 0 then u0.totalRecords else rows.length)

/-- Observable outcome of one bulk-delete run; `catalogCount` is the number
of product rows left in the store. -/
structure DeleteResult where
  upload : Upload
  cache : Option CacheEntry
  catalogCount : Nat
  events : List EventMsg
  trace : List Upload

/-- The `while current_remaining > 0` loop of `bulk_delete_products` in a
single-writer run: `delete_chunk` removes `min DELETE_CHUNK_SIZE count`
rows; a zero-row delete re-queries `count_all()` (then zero) and breaks. -/
def deleteLoop (total count currentRemaining processed : Nat) (u : Upload)
    (trace : List Upload) :
    Nat × Nat × Upload × Option CacheEntry × List Upload :=
  if currentRemaining = 0 then
    (count, processed, u, some ⟨"in_progress", processed, total⟩, trace)
  else
    let deleted := min deleteChunkSize count
    if h : deleted = 0 then
      (count, processed, u, some ⟨"in_progress", processed, total⟩, trace)
    else
      let count' := count - deleted
      let processed' := min (processed + deleted) total
      let currentRemaining' := currentRemaining - deleted
      let progress := calculateProgress processed' total
      let u' := updateProgress processed' total progress u
      deleteLoop total count' currentRemaining' processed' u' (trace ++ [u'])
termination_by count
decreasing_by
  have h1 : 0 < min deleteChunkSize count := Nat.pos_of_ne_zero h
  have h2 : min deleteChunkSize count ≤ count := Nat.min_le_right _ _
  omega

/-- Embedding of the happy path of `bulk_delete_products`: compute the
remaining rows and the fixed total, transition to PROCESSING, return early
when there is nothing left to delete, otherwise run the delete loop and
finish with `_mark_completed` followed by the completion event. -/
def bulkDeleteProducts (u0 : Upload) (catalogCount : Nat) : DeleteResult :=
  let remainingRecords := catalogCount
  let processed := min u0.processedRecords u0.totalRecords
  let total :=
    if u0.totalRecords ≠ 0 then u0.totalRecords
    else processed + remainingRecords
  let u1 := markProcessing total (some processed) u0
  if remainingRecords = 0 ∨ total ≤ processed then
    { upload := markCompleted u1,
      cache := some { status := "completed", processed := processed,
                      total := total },
      catalogCount := remainingRecords, events := [],
      trace := [u1, markCompleted u1] }
  else
    match deleteLoop total remainingRecords remainingRecords processed u1 [u1] with
    | (countF, processedF, uF, _cacheF, traceF) =>
      let u2 := markCompleted uF
      { upload := u2,
        cache := some { status := "completed", processed := processedF,
                        total := total },
        catalogCount := countF,
        events := [{ eventType := "bulk_delete_complete",
                     dataCount := processedF }],
        trace := traceF ++ [u2] }

/-- The status strings the pipeline ever writes to the progress cache:
`"pending"` at submission (`_cache_initial_progress`), `"in_progress"`,
`"completed"` and `"failed"` from the task bodies, and `"retrying"` from
`_schedule_retry`. -/
def knownStatusValues : List String :=
  ["pending", "in_progress", "completed", "failed", "retrying"]

/-- C2 (corrected): `mark_completed` sets status COMPLETED, `progress = 100`
and the completion timestamp, and leaves `processed_records` and
`total_records` unchanged (it does not copy `total_count` into
`processed_count`). -/
theorem markCompleted_fields : ∀ u : Upload,
    (markCompleted u).status = UploadStatus.completed ∧
    (markCompleted u).progress = 100 ∧
    (markCompleted u).completedAt = true ∧
    (markCompleted u).processedRecords = u.processedRecords ∧
    (markCompleted u).totalRecords = u.totalRecords :=
  fun _ => ⟨rfl, rfl, rfl, rfl, rfl⟩

/-- C2 counterexample: on a record with `processed_records = 1` and
`total_records = 2`, `mark_completed` leaves the counters at 1 and 2, so
the stored `processed_records` does not equal the stored `total_records`
afterwards. -/
theorem markCompleted_counters_refuted :
    (markCompleted ⟨UploadStatus.processing, 1, 2, 50, false⟩).status =
      UploadStatus.completed ∧
    ¬ ((markCompleted ⟨UploadStatus.processing, 1, 2, 50, false⟩).processedRecords =
       (markCompleted ⟨UploadStatus.processing, 1, 2, 50, false⟩).totalRecords) :=
  ⟨rfl, by decide⟩

/-- C8 (confirmed): the retry controller schedules a re-invocation with
delay `min(60, 2 ^ attempt)` where `attempt = current_retry + 1`; a retry
is only ever scheduled while `current_retry < max_retries`, so at most 3
retries happen; the delay is non-decreasing in the attempt and capped at
60; once retries are exhausted the failure surfaces and the job is marked
FAILED. -/
theorem retry_backoff_spec :
    (∀ cur p t, cur < maxTaskRetries →
      scheduleRetry maxTaskRetries cur p t =
        .ok (min maxRetryDelaySeconds (2 ^ (cur + 1)), ⟨"retrying", p, t⟩)) ∧
    (∀ cur p t d e, scheduleRetry maxTaskRetries cur p t = .ok (d, e) →
      cur + 1 ≤ maxTaskRetries ∧ d ≤ maxRetryDelaySeconds) ∧
    (∀ a b : Nat, a ≤ b →
      min maxRetryDelaySeconds (2 ^ a) ≤ min maxRetryDelaySeconds (2 ^ b)) ∧
    (∀ cur p t u, maxTaskRetries ≤ cur →
      handleChunkFailure cur p t u = .inl (markFailed u, ⟨"failed", p, t⟩) ∧
      (markFailed u).status = UploadStatus.failed) ∧
    maxTaskRetries = 3 := by
  refine ⟨?_, ?_, ?_, ?_, rfl⟩
  · intro cur p t h
    rw [scheduleRetry, if_neg (by omega)]
  · intro cur p t d e h
    rw [scheduleRetry] at h
    by_cases hc : maxTaskRetries ≤ cur
    · rw [if_pos hc] at h; exact absurd h (by simp)
    · rw [if_neg hc] at h
      refine ⟨by omega, ?_⟩
      have hd : d = min maxRetryDelaySeconds (2 ^ (cur + 1)) := by
        injection h with h'
        exact (congrArg Prod.fst h').symm
      rw [hd]
      exact Nat.min_le_left _ _
  · intro a b h
    exact min_le_min (Nat.le_refl _) (Nat.pow_le_pow_right (by omega) h)
  · intro cur p t u h
    rw [handleChunkFailure, scheduleRetry, if_pos h]
    exact ⟨rfl, rfl⟩

/-- C8 witness: at `current_retry = 0` a retry is scheduled with delay
`min(60, 2 ^ 1) = 2` and the `"retrying"` cache marker. -/
theorem retry_backoff_witness :
    scheduleRetry maxTaskRetries 0 5 10 =
      .ok (min maxRetryDelaySeconds (2 ^ (0 + 1)), ⟨"retrying", 5, 10⟩) :=
  retry_backoff_spec.1 0 5 10 (by decide)

/-- C9 (confirmed): the progress read consults the cache first and returns
the cached status and counters; when the cache entry is absent it falls
back to the durable record; `UploadNotFoundError` is raised exactly when
the job id is in neither; and both paths derive the percentage with the
same formula `round(processed/total*100, 2)` (0 when the total is 0). -/
theorem getStatus_cache_first_fallback_notfound :
    (∀ (e : CacheEntry) (st : Option Upload),
      getStatus (some e) st =
        .ok ⟨e.status, e.processed, e.total,
          roundTo2 (calculateProgress e.processed e.total)⟩) ∧
    (∀ u : Upload,
      getStatus none (some u) =
        .ok ⟨mapStatus u.status, u.processedRecords, u.totalRecords,
          roundTo2 (calculateProgress u.processedRecords u.totalRecords)⟩) ∧
    (∀ (cache : Option CacheEntry) (st : Option Upload),
      (∃ msg, getStatus cache st = .error msg) ↔ cache = none ∧ st = none) ∧
    (∀ cache st r, getStatus cache st = .ok r →
      r.progressPercentage =
        roundTo2 (calculateProgress r.processedRecords r.totalRecords)) ∧
    (∀ p : Nat, calculateProgress p 0 = 0) := by
  refine ⟨fun e st => rfl, fun u => rfl, ?_, ?_, fun p => rfl⟩
  · intro cache st
    constructor
    · rintro ⟨msg, hmsg⟩
      cases cache with
      | some e => exact absurd hmsg (by simp [getStatus])
      | none =>
        cases st with
        | some u => exact absurd hmsg (by simp [getStatus])
        | none => exact ⟨rfl, rfl⟩
    · rintro ⟨hc, hs⟩
      subst hc; subst hs
      exact ⟨"UploadNotFoundError", rfl⟩
  · intro cache st r h
    cases cache with
    | some e =>
      rw [getStatus] at h
      cases h
      rfl
    | none =>
      cases st with
      | none => exact absurd h (by simp [getStatus])
      | some u =>
        rw [getStatus] at h
        cases h
        rfl

/-- C9 witness: read through the cache entry `{in_progress, 1, 4}`; the
returned percentage is derived by the shared formula. -/
theorem getStatus_fallback_witness :
    (StatusResponse.mk "in_progress" 1 4
        (roundTo2 (calculateProgress 1 4))).progressPercentage =
      roundTo2 (calculateProgress 1 4) :=
  getStatus_cache_first_fallback_notfound.2.2.2.1 (some ⟨"in_progress", 1, 4⟩)
    none ⟨"in_progress", 1, 4, roundTo2 (calculateProgress 1 4)⟩ rfl

/-- C4 (corrected): for every cache state the pipeline can write (and any
durable record), the status returned by the progress read is one of
`pending`, `in_progress`, `completed`, `failed` or the transient
`retrying` marker written while a retry is scheduled. -/
theorem getStatus_status_in_known_values :
    ∀ (cache : Option CacheEntry) (st : Option Upload) (r : StatusResponse),
      (∀ e, cache = some e → e.status ∈ knownStatusValues) →
      getStatus cache st = .ok r → r.status ∈ knownStatusValues := by
  intro cache st r hcache h
  cases cache with
  | some e =>
    rw [getStatus] at h
    cases h
    exact hcache e rfl
  | none =>
    cases st with
    | none => exact absurd h (by simp [getStatus])
    | some u =>
      rw [getStatus] at h
      cases h
      cases u.status <;> simp [mapStatus, knownStatusValues]

/-- C4 counterexample: `_schedule_retry` writes the cache entry
`{status: "retrying"}`; the read path returns that status verbatim, and
`"retrying"` is not one of the four advertised values. -/
theorem getStatus_retrying_refuted :
    scheduleRetry maxTaskRetries 0 2 5 = .ok (2, ⟨"retrying", 2, 5⟩) ∧
    getStatus (some ⟨"retrying", 2, 5⟩)
        (some ⟨UploadStatus.processing, 2, 5, 40, false⟩) =
      .ok ⟨"retrying", 2, 5, roundTo2 (calculateProgress 2 5)⟩ ∧
    "retrying" ∉ (["pending", "in_progress", "completed", "failed"] :
      List String) :=
  ⟨rfl, rfl, by decide⟩

/-- C4 witness: with no cache entry and a PENDING record in the store, the
returned status is among the known values. -/
theorem getStatus_status_witness :
    (StatusResponse.mk "pending" 0 0
        (roundTo2 (calculateProgress 0 0))).status ∈ knownStatusValues :=
  getStatus_status_in_known_values none (some freshUpload)
    ⟨"pending", 0, 0, roundTo2 (calculateProgress 0 0)⟩
    (fun _ h => Option.noConfusion h) rfl

/-- C1 (corrected): a bulk-delete job against an empty catalog with zero
counters terminates COMPLETED with `processed_records = total_records = 0`
and the `"completed"` cache write, but the early-return path skips the
event dispatch: no bulk-delete-complete event is sent. -/
theorem bulkDelete_emptyCatalog_completes_silently :
    ∀ u0 : Upload, u0.processedRecords = 0 → u0.totalRecords = 0 →
      (bulkDeleteProducts u0 0).upload.status = UploadStatus.completed ∧
      (bulkDeleteProducts u0 0).upload.processedRecords = 0 ∧
      (bulkDeleteProducts u0 0).upload.totalRecords = 0 ∧
      (bulkDeleteProducts u0 0).cache = some ⟨"completed", 0, 0⟩ ∧
      (bulkDeleteProducts u0 0).events = [] := by
  intro u0 h1 h2
  simp [bulkDeleteProducts, markProcessing, markCompleted, h1, h2]

/-- C1 counterexample: on the empty catalog the job completes but the
bulk-delete-complete event (which the claim says carries
`deleted_count: 0`) is never dispatched. -/
theorem bulkDelete_emptyCatalog_event_refuted :
    ¬ (EventMsg.mk "bulk_delete_complete" 0 ∈
        (bulkDeleteProducts freshUpload 0).events) ∧
    (bulkDeleteProducts freshUpload 0).upload.status =
      UploadStatus.completed := by decide

/-- C1 witness: the fresh upload record instantiates the zero-counter
hypotheses. -/
theorem bulkDelete_emptyCatalog_witness :
    (bulkDeleteProducts freshUpload 0).upload.status = UploadStatus.completed ∧
    (bulkDeleteProducts freshUpload 0).upload.processedRecords = 0 ∧
    (bulkDeleteProducts freshUpload 0).upload.totalRecords = 0 ∧
    (bulkDeleteProducts freshUpload 0).cache = some ⟨"completed", 0, 0⟩ ∧
    (bulkDeleteProducts freshUpload 0).events = [] :=
  bulkDelete_emptyCatalog_completes_silently freshUpload rfl rfl

/-- Helper: the last element of a cons cell is the last element of the
tail, or the head when the tail is empty. -/
lemma getLast?_cons_eq {α : Type} (x : α) (l : List α) :
    (x :: l).getLast? = some (l.getLast?.getD x) := by
  cases l with
  | nil => rfl
  | cons y l =>
    rw [List.getLast?_cons_cons]
    cases h : (y :: l).getLast? with
    | none => exact absurd (List.getLast?_eq_none_iff.mp h) (by simp)
    | some z => rfl

/-- Helper: the dict built by the Python loop holds, for each key, the last
normalised occurrence with that lower-cased SKU. -/
lemma dedupFold_eq_lastWins (batch : List ProductRow) (k : String) :
    dedupFold batch k = lastWins batch k := by
  suffices h : ∀ (acc : String → Option ProductRow),
      batch.foldl
        (fun acc r =>
          let n := normalizeRow r
          fun k => if k = n.sku then some n else acc k) acc k =
      match lastWins batch k with
      | some r => some r
      | none => acc k by
    have := h (fun _ => none)
    rw [dedupFold, this]
    cases lastWins batch k <;> rfl
  induction batch with
  | nil => intro acc; simp [lastWins]
  | cons r rest ih =>
    intro acc
    rw [List.foldl_cons, ih]
    have hlw : lastWins (r :: rest) k =
        match lastWins rest k with
        | some q => some q
        | none =>
          if (normalizeRow r).sku = k then some (normalizeRow r) else none := by
      rw [lastWins, lastWins, List.map_cons]
      by_cases hb : (normalizeRow r).sku = k
      · rw [List.filter_cons_of_pos (by simp [hb]), getLast?_cons_eq]
        cases hrest : ((rest.map normalizeRow).filter
            (fun q => q.sku = k)).getLast? with
        | none => simp [hb]
        | some z => simp
      · rw [List.filter_cons_of_neg (by simp [hb])]
        cases hrest : ((rest.map normalizeRow).filter
            (fun q => q.sku = k)).getLast? <;> simp [hb]
    rw [hlw]
    cases hrest : lastWins rest k with
    | some q => rfl
    | none =>
      by_cases hb : (normalizeRow r).sku = k
      · simp [hb, eq_comm]
      · simp [hb]
        intro hk
        exact absurd hk.symm hb

/-- Helper: pointwise characterisation of `bulk_upsert` on the store. -/
lemma bulkUpsertStore_eq (batch : List ProductRow) (store : Store)
    (k : String) :
    bulkUpsertStore batch store k =
      match lastWins batch k with
      | none => store k
      | some r => some (mergeRow (store k) r) := by
  rw [bulkUpsertStore, dedupFold_eq_lastWins]

/-- Helper: re-applying the conflict resolution with the same incoming row
is absorbed. -/
lemma mergeRow_absorb (o : Option ProductRow) (r : ProductRow) :
    mergeRow (some (mergeRow o r)) r = mergeRow o r := by
  cases o <;> rfl

/-- Helper: a winning row for key `k` is a normalised batch row whose
lower-cased SKU is `k`. -/
lemma lastWins_spec {batch : List ProductRow} {k : String} {q : ProductRow}
    (h : lastWins batch k = some q) :
    q.sku = k ∧ ∃ p ∈ batch, q = normalizeRow p := by
  rw [lastWins] at h
  have hmem : q ∈ (batch.map normalizeRow).filter (fun r => r.sku = k) := by
    obtain ⟨hne, hq⟩ :=
      List.mem_getLast?_eq_getLast (Option.mem_def.mpr h)
    rw [hq]
    exact List.getLast_mem hne
  have h1 := List.of_mem_filter hmem
  have h2 := List.mem_of_mem_filter hmem
  refine ⟨by simpa using h1, ?_⟩
  obtain ⟨p, hp, hpq⟩ := List.mem_map.mp h2
  exact ⟨p, hp, hpq.symm⟩

/-- Helper: every row surviving `_build_product_payload` carries trimmed
fields, `active = true`, and comes from an input row of the chunk. -/
lemma buildProductPayload_mem {chunk : List InputRow} {p : ProductRow}
    (hp : p ∈ buildProductPayload chunk) :
    p.active = true ∧ ∃ row ∈ chunk, p.sku = pyStrip row.sku := by
  rw [buildProductPayload, List.mem_filterMap] at hp
  obtain ⟨row, hrow, heq⟩ := hp
  dsimp only at heq
  split at heq
  · exact absurd heq (by simp)
  · cases heq
    exact ⟨rfl, row, hrow, rfl⟩

/-- C7 (confirmed): `bulk_upsert` deduplicates the batch by lower-cased
SKU with last occurrence winning; an empty batch returns 0 and leaves the
store untouched; applying the same batch twice yields the same stored row
set as applying it once. -/
theorem bulkUpsert_dedup_empty_idempotent :
    (∀ (batch : List ProductRow) (store : Store) (k : String),
      bulkUpsertStore batch store k =
        match lastWins batch k with
        | none => store k
        | some r => some (mergeRow (store k) r)) ∧
    (bulkUpsertCount [] = 0 ∧ ∀ store : Store, bulkUpsertStore [] store = store) ∧
    (∀ (batch : List ProductRow) (store : Store),
      bulkUpsertStore batch (bulkUpsertStore batch store) =
        bulkUpsertStore batch store) := by
  refine ⟨bulkUpsertStore_eq, ⟨rfl, fun store => funext fun k => rfl⟩, ?_⟩
  intro batch store
  funext k
  simp only [bulkUpsertStore_eq]
  cases h : lastWins batch k with
  | none => simp [h]
  | some r => simp [h, mergeRow_absorb]

/-- C10 (confirmed): every surviving ingestion row is marked active; a row
freshly inserted by `bulk_upsert` is stored under (and with) the
lower-cased trimmed SKU of some chunk row, with `active = true`; an
existing row keeps its stored SKU, and if it was rewritten at all its
`active` flag is true. -/
theorem bulkUpsert_lowercase_active :
    ∀ (chunk : List InputRow) (store : Store) (k : String),
      (∀ p ∈ buildProductPayload chunk, p.active = true) ∧
      (store k = none →
        ∀ r, bulkUpsertStore (buildProductPayload chunk) store k = some r →
          r.sku = k ∧ r.active = true ∧
          ∃ row ∈ chunk, r.sku = pyLower (pyStrip row.sku)) ∧
      (∀ old, store k = some old →
        ∀ r, bulkUpsertStore (buildProductPayload chunk) store k = some r →
          r.sku = old.sku ∧ (r ≠ old → r.active = true)) := by
  intro chunk store k
  refine ⟨fun p hp => (buildProductPayload_mem hp).1, ?_, ?_⟩
  · intro hk r hr
    rw [bulkUpsertStore_eq] at hr
    cases hlast : lastWins (buildProductPayload chunk) k with
    | none => rw [hlast, hk] at hr; exact absurd hr (by simp)
    | some q =>
      rw [hlast, hk] at hr
      cases hr
      obtain ⟨hsku, p, hp, hq⟩ := lastWins_spec hlast
      obtain ⟨hact, row, hrow, hps⟩ := buildProductPayload_mem hp
      refine ⟨hsku, ?_, row, hrow, ?_⟩
      · rw [hq]; exact hact
      · rw [hq]
        show pyLower p.sku = pyLower (pyStrip row.sku)
        rw [hps]
  · intro old hold r hr
    rw [bulkUpsertStore_eq] at hr
    cases hlast : lastWins (buildProductPayload chunk) k with
    | none =>
      rw [hlast, hold] at hr
      cases hr
      exact ⟨rfl, fun hne => absurd rfl hne⟩
    | some q =>
      rw [hlast, hold] at hr
      cases hr
      obtain ⟨hsku, p, hp, hq⟩ := lastWins_spec hlast
      obtain ⟨hact, _, _, _⟩ := buildProductPayload_mem hp
      exact ⟨rfl, fun _ => by rw [hq]; exact hact⟩

/-- C10 witness: ingesting the single row `("A", "SKU-1", "d")` into an
empty store inserts it under the key `"sku-1"` with the lower-cased SKU
and `active = true`. -/
theorem bulkUpsert_lowercase_active_witness :
    (ProductRow.mk "A" "sku-1" "d" true).sku = "sku-1" ∧
    (ProductRow.mk "A" "sku-1" "d" true).active = true ∧
    ∃ row ∈ [InputRow.mk "A" "SKU-1" "d"],
      (ProductRow.mk "A" "sku-1" "d" true).sku = pyLower (pyStrip row.sku) :=
  (bulkUpsert_lowercase_active [⟨"A", "SKU-1", "d"⟩] (fun _ => none)
    "sku-1").2.1 rfl ⟨"A", "sku-1", "d", true⟩ (by decide)

/-- Helper: once the replay budget is exhausted it stays exhausted. -/
lemma importChunkStep_replay0 {total : Nat} {s : LoopState}
    (h : s.replay = 0) (chunk : List InputRow) :
    (importChunkStep total s chunk).replay = 0 := by
  rw [importChunkStep]
  by_cases hp : buildProductPayload chunk = []
  · rw [if_pos hp]; exact h
  · rw [if_neg hp, if_neg (by simp [h])]
    rfl

/-- Helper: the replay budget stays exhausted along the whole loop. -/
lemma foldl_replay0 (total : Nat) :
    ∀ (cs : List (List InputRow)) (s : LoopState), s.replay = 0 →
      (cs.foldl (importChunkStep total) s).replay = 0 := by
  intro cs
  induction cs with
  | nil => intro s h; exact h
  | cons ch cs ih =>
    intro s h
    rw [List.foldl_cons]
    exact ih _ (importChunkStep_replay0 h ch)

/-- Helper: the checkpointed processed count never exceeds the total. -/
lemma importChunkStep_processed_le {total : Nat} {s : LoopState}
    (h : s.processed ≤ total) (chunk : List InputRow) :
    (importChunkStep total s chunk).processed ≤ total := by
  rw [importChunkStep]
  by_cases hp : buildProductPayload chunk = []
  · rw [if_pos hp]; exact h
  · rw [if_neg hp]
    by_cases hr : s.replay ≠ 0
    · rw [if_pos hr]
      by_cases hlen : (buildProductPayload chunk).length ≤ s.replay
      · rw [if_pos hlen]; exact h
      · rw [if_neg hlen]
        by_cases hrest : (buildProductPayload chunk).drop s.replay = []
        · rw [if_pos hrest]; exact h
        · rw [if_neg hrest]; exact Nat.min_le_right _ _
    · rw [if_neg hr]; exact Nat.min_le_right _ _

/-- Helper: processed count bound along the whole loop. -/
lemma foldl_processed_le (total : Nat) :
    ∀ (cs : List (List InputRow)) (s : LoopState), s.processed ≤ total →
      (cs.foldl (importChunkStep total) s).processed ≤ total := by
  intro cs
  induction cs with
  | nil => intro s h; exact h
  | cons ch cs ih =>
    intro s h
    rw [List.foldl_cons]
    exact ih _ (importChunkStep_processed_le h ch)

/-- C3 (corrected): in a run whose replay budget is exhausted, the
checkpoint written after one more chunk advances the processed count by
the number of chunk rows that survive the required-field filter, capped at
`total_count` — not by the raw number of input rows consumed. -/
theorem chunk_advance_by_survivors :
    ∀ (total : Nat) (cs : List (List InputRow)) (ch : List InputRow)
      (s : LoopState), s.replay = 0 → s.processed ≤ total →
      ((cs ++ [ch]).foldl (importChunkStep total) s).processed =
        min ((cs.foldl (importChunkStep total) s).processed +
          (buildProductPayload ch).length) total := by
  intro total cs ch s hreplay hle
  rw [List.foldl_append, List.foldl_cons, List.foldl_nil]
  have hr := foldl_replay0 total cs s hreplay
  have hp := foldl_processed_le total cs s hle
  rw [importChunkStep]
  by_cases hpay : buildProductPayload ch = []
  · rw [if_pos hpay, hpay]
    simp [Nat.min_eq_left hp]
  · rw [if_neg hpay, if_neg (by simp [hr])]
    rfl

/-- C3 counterexample: a 2-row chunk whose first row has a blank name
advances the checkpoint from 0 to 1, not to `min(0 + 2, 2) = 2`: dropped
rows are not counted into `processed_records`. -/
theorem chunk_advance_dropped_rows_refuted :
    ((importProductsFromCsv 2 [⟨"", "x", ""⟩, ⟨"A", "y", ""⟩] freshUpload
      (fun _ => none)).trace.map Upload.processedRecords) = [0, 1, 1] ∧
    iterChunks 2 [⟨"", "x", ""⟩, ⟨"A", "y", ""⟩] =
      [[⟨"", "x", ""⟩, ⟨"A", "y", ""⟩]] ∧
    ¬ (((importProductsFromCsv 2 [⟨"", "x", ""⟩, ⟨"A", "y", ""⟩] freshUpload
      (fun _ => none)).trace.map Upload.processedRecords) =
        [0, min (0 + 2) 2, min (0 + 2) 2]) := by decide

/-- C3 witness: a concrete loop state with no replay budget; the single
chunk `[blank-name row, valid row]` advances the processed count by its
one surviving row, capped at the total 2. -/
theorem chunk_advance_by_survivors_witness :
    ((([] : List (List InputRow)) ++
        ([[⟨"", "x", ""⟩, ⟨"A", "y", ""⟩]] : List (List InputRow))).foldl
        (importChunkStep 2)
        (⟨0, 0, markProcessing 2 (some 0) freshUpload, none, fun _ => none,
          []⟩ : LoopState)).processed =
      min ((([] : List (List InputRow)).foldl (importChunkStep 2)
        (⟨0, 0, markProcessing 2 (some 0) freshUpload, none, fun _ => none,
          []⟩ : LoopState)).processed +
        (buildProductPayload ([⟨"", "x", ""⟩, ⟨"A", "y", ""⟩] :
          List InputRow)).length) 2 :=
  chunk_advance_by_survivors 2 []
    ([⟨"", "x", ""⟩, ⟨"A", "y", ""⟩] : List InputRow)
    (⟨0, 0, markProcessing 2 (some 0) freshUpload, none, fun _ => none, []⟩ :
      LoopState)
    rfl (by decide)

/-- Helper: the chunks produced by `_iter_chunks`, flattened, give back the
input row stream (with the pending chunk as accumulator). -/
lemma iterChunksAux_flatten (c : Nat) :
    ∀ (rows chunk : List InputRow),
      (iterChunksAux c chunk rows).flatten = chunk ++ rows := by
  intro rows
  induction rows with
  | nil =>
    intro chunk
    by_cases h : chunk = [] <;> simp [iterChunksAux, h]
  | cons r rest ih =>
    intro chunk
    rw [iterChunksAux]
    by_cases h : c ≤ (chunk ++ [r]).length
    · rw [if_pos h, List.flatten_cons, ih]
      simp
    · rw [if_neg h, ih]
      simp

/-- Helper: chunking partitions the row stream. -/
lemma iterChunks_flatten (c : Nat) (rows : List InputRow) :
    (iterChunks c rows).flatten = rows := by
  rw [iterChunks, iterChunksAux_flatten]
  rfl

/-- Helper: the payload filter distributes over append. -/
lemma buildProductPayload_append (a b : List InputRow) :
    buildProductPayload (a ++ b) =
      buildProductPayload a ++ buildProductPayload b :=
  List.filterMap_append a b _

/-- Helper: summing survivor counts over the chunks counts the survivors
of the whole stream. -/
lemma payload_sum_eq_flatten :
    ∀ cs : List (List InputRow),
      (cs.map (fun ch => (buildProductPayload ch).length)).sum =
        (buildProductPayload cs.flatten).length := by
  intro cs
  induction cs with
  | nil => rfl
  | cons ch cs ih =>
    rw [List.map_cons, List.sum_cons, List.flatten_cons,
      buildProductPayload_append, List.length_append, ih]

/-- A row `_build_product_payload` drops: blank name or SKU after trim. -/
def droppedRow (r : InputRow) : Bool :=
  decide (pyStrip r.name = "" ∨ pyStrip r.sku = "")

/-- Helper: survivors plus dropped rows account for every input row. -/
lemma payload_length_add_dropped (l : List InputRow) :
    (buildProductPayload l).length + l.countP droppedRow = l.length := by
  induction l with
  | nil => rfl
  | cons r t ih =>
    by_cases hd : pyStrip r.name = "" ∨ pyStrip r.sku = "" <;>
      simp [buildProductPayload, List.filterMap_cons, droppedRow, hd,
        List.countP_cons, List.length_cons] at ih ⊢ <;>
      omega

/-- Helper: a clean (no replay budget) loop pass advances the processed
count by exactly the survivor count of the consumed chunks, provided the
grand total fits under the cap. -/
lemma foldl_processed_clean (total : Nat) :
    ∀ (cs : List (List InputRow)) (s : LoopState), s.replay = 0 →
      s.processed +
        (cs.map (fun ch => (buildProductPayload ch).length)).sum ≤ total →
      (cs.foldl (importChunkStep total) s).processed =
        s.processed +
          (cs.map (fun ch => (buildProductPayload ch).length)).sum := by
  intro cs
  induction cs with
  | nil => intro s h hle; simp
  | cons ch cs ih =>
    intro s h hle
    rw [List.map_cons, List.sum_cons] at hle
    have hle1 : s.processed + (buildProductPayload ch).length ≤ total := by
      omega
    have hstep : (importChunkStep total s ch).processed =
        s.processed + (buildProductPayload ch).length := by
      rw [importChunkStep]
      by_cases hp : buildProductPayload ch = []
      · rw [if_pos hp, hp]; simp
      · rw [if_neg hp, if_neg (by simp [h])]
        exact Nat.min_eq_left hle1
    rw [List.foldl_cons, ih _ (importChunkStep_replay0 h ch)
      (by rw [hstep]; omega), hstep, List.map_cons, List.sum_cons]
    omega

/-- Helper: each loop step keeps the stored `processed_records` equal to
the local `processed_records` variable. -/
lemma foldl_upload_processed (total : Nat) :
    ∀ (cs : List (List InputRow)) (s : LoopState),
      s.upload.processedRecords = s.processed →
      (cs.foldl (importChunkStep total) s).upload.processedRecords =
        (cs.foldl (importChunkStep total) s).processed := by
  intro cs
  induction cs with
  | nil => intro s h; exact h
  | cons ch cs ih =>
    intro s h
    rw [List.foldl_cons]
    refine ih _ ?_
    rw [importChunkStep]
    by_cases hp : buildProductPayload ch = []
    · rw [if_pos hp]; exact h
    · rw [if_neg hp]
      by_cases hr : s.replay ≠ 0
      · rw [if_pos hr]
        by_cases hlen : (buildProductPayload ch).length ≤ s.replay
        · rw [if_pos hlen]; exact h
        · rw [if_neg hlen]
          by_cases hrest : (buildProductPayload ch).drop s.replay = []
          · rw [if_pos hrest]; exact h
          · rw [if_neg hrest]; rfl
      · rw [if_neg hr]; rfl

/-- C6 (confirmed): for every chunk size and every CSV input, a clean
(non-resumed, failure-free) ingestion run ends with `processed_records`
equal to the number of data rows minus the rows dropped for a blank name
or SKU after trimming. -/
theorem clean_run_processed_eq_survivors :
    ∀ (c : Nat) (rows : List InputRow) (store0 : Store),
      (importProductsFromCsv c rows freshUpload store0).upload.processedRecords =
        rows.length - rows.countP droppedRow := by
  intro c rows store0
  have hdrop := payload_length_add_dropped rows
  by_cases hnil : rows = []
  · subst hnil
    simp [importProductsFromCsv, importRunWithTotal, freshUpload,
      markProcessing, markCompleted]
  · have hlen : rows.length ≠ 0 := by
      intro h0; exact hnil (List.eq_nil_of_length_eq_zero h0)
    have hsum : ((iterChunks c rows).map
        (fun ch => (buildProductPayload ch).length)).sum =
        (buildProductPayload rows).length := by
      rw [payload_sum_eq_flatten, iterChunks_flatten]
    have hbound : (buildProductPayload rows).length ≤ rows.length :=
      List.length_filterMap_le _ _
    simp only [importProductsFromCsv, importRunWithTotal, freshUpload,
      markCompleted]
    norm_num [hlen, Nat.zero_min]
    rw [foldl_upload_processed _ _ _ (by simp [markProcessing, hlen]),
      foldl_processed_clean _ _ _ rfl (by simp [hsum]; omega)]
    simp [hsum]
    omega

/-- Helper: the progress formula is monotone in the processed count. -/
lemma calculateProgress_mono {p q : Nat} (t : Nat) (h : p ≤ q) :
    calculateProgress p t ≤ calculateProgress q t := by
  rw [calculateProgress, calculateProgress]
  by_cases ht : t = 0
  · simp [ht]
  · rw [if_neg ht, if_neg ht]
    have hq : (p : ℚ) ≤ q := Nat.cast_le.mpr h
    have hto : (0 : ℚ) < t := by
      exact_mod_cast Nat.pos_of_ne_zero ht
    gcongr

/-- Helper: the progress formula never exceeds 100 while the processed
count stays under the total. -/
lemma calculateProgress_le_100 {p t : Nat} (h : p ≤ t) :
    calculateProgress p t ≤ 100 := by
  rw [calculateProgress]
  by_cases ht : t = 0
  · simp [ht]
  · rw [if_neg ht]
    have h1 : (p : ℚ) / t ≤ 1 := by
      rw [div_le_one (by exact_mod_cast Nat.pos_of_ne_zero ht)]
      exact_mod_cast h
    calc (p : ℚ) / t * 100 ≤ 1 * 100 :=
        mul_le_mul_of_nonneg_right h1 (by norm_num)
      _ = 100 := one_mul _

/-- Helper: field values written by `mark_processing` with an explicit
initial count. -/
lemma markProcessing_char (t i : Nat) (u : Upload) :
    (markProcessing t (some i) u).processedRecords = min i t ∧
    (markProcessing t (some i) u).totalRecords = t ∧
    (markProcessing t (some i) u).status = UploadStatus.processing ∧
    (markProcessing t (some i) u).progress = calculateProgress (min i t) t := by
  rw [markProcessing]
  by_cases ht : t = 0
  · subst ht
    simp [calculateProgress]
  · rw [if_neg ht]
    simp [calculateProgress, ht]

/-- Loop invariant tying the checkpoint trace to the loop variables: the
stored progresses are chained non-decreasing, the last trace entry is the
current record, whose progress is the formula value of the current
counters, which stay under the total. -/
def TraceOK (total : Nat) (s : LoopState) : Prop :=
  s.trace.Chain' (fun a b => a.progress ≤ b.progress) ∧
  s.trace.getLast? = some s.upload ∧
  s.upload.progress = calculateProgress s.processed total ∧
  s.processed ≤ total

/-- Helper: the write step preserves the trace invariant. -/
lemma chunkWrite_traceOK {total : Nat} {s : LoopState}
    (h : TraceOK total s) (products : List ProductRow) :
    TraceOK total (chunkWrite total products s) := by
  obtain ⟨hchain, hlast, hprog, hle⟩ := h
  have hmono : s.processed ≤ min (s.processed + products.length) total :=
    le_min (Nat.le_add_right _ _) hle
  refine ⟨?_, ?_, rfl, Nat.min_le_right _ _⟩
  · show (s.trace ++ [_]).Chain' _
    rw [List.chain'_append]
    refine ⟨hchain, List.chain'_singleton _, ?_⟩
    intro x hx y hy
    rw [hlast, Option.mem_some_iff] at hx
    simp only [List.head?_cons, Option.mem_some_iff] at hy
    subst hx; subst hy
    show s.upload.progress ≤ calculateProgress _ total
    rw [hprog]
    exact calculateProgress_mono total hmono
  · exact List.getLast?_concat _

/-- Helper: every loop iteration preserves the trace invariant. -/
lemma importChunkStep_traceOK {total : Nat} {s : LoopState}
    (h : TraceOK total s) (chunk : List InputRow) :
    TraceOK total (importChunkStep total s chunk) := by
  rw [importChunkStep]
  by_cases hp : buildProductPayload chunk = []
  · rw [if_pos hp]; exact h
  · rw [if_neg hp]
    by_cases hr : s.replay ≠ 0
    · rw [if_pos hr]
      by_cases hlen : (buildProductPayload chunk).length ≤ s.replay
      · rw [if_pos hlen]; exact h
      · rw [if_neg hlen]
        by_cases hrest : (buildProductPayload chunk).drop s.replay = []
        · rw [if_pos hrest]; exact h
        · rw [if_neg hrest]
          exact chunkWrite_traceOK h _
    · rw [if_neg hr]
      exact chunkWrite_traceOK h _

/-- Helper: the trace invariant holds after the whole loop. -/
lemma foldl_traceOK (total : Nat) :
    ∀ (cs : List (List InputRow)) (s : LoopState), TraceOK total s →
      TraceOK total (cs.foldl (importChunkStep total) s) := by
  intro cs
  induction cs with
  | nil => intro s h; exact h
  | cons ch cs ih =>
    intro s h
    rw [List.foldl_cons]
    exact ih _ (importChunkStep_traceOK h ch)

/-- Elementwise shape of every checkpoint state the pipeline stores: a
COMPLETED state carries progress 100, and a zero-total state that is not
COMPLETED carries progress 0. -/
def GoodUpload (u : Upload) : Prop :=
  (u.status = UploadStatus.completed → u.progress = 100) ∧
  (u.totalRecords = 0 → u.status ≠ UploadStatus.completed → u.progress = 0)

/-- Helper: checkpoints written by the loop are good. -/
lemma foldl_goodUpload (total : Nat) :
    ∀ (cs : List (List InputRow)) (s : LoopState),
      (∀ u ∈ s.trace, GoodUpload u) →
      ∀ u ∈ (cs.foldl (importChunkStep total) s).trace, GoodUpload u := by
  intro cs
  induction cs with
  | nil => intro s h; exact h
  | cons ch cs ih =>
    intro s h
    rw [List.foldl_cons]
    refine ih _ ?_
    rw [importChunkStep]
    by_cases hp : buildProductPayload ch = []
    · rw [if_pos hp]; exact h
    · rw [if_neg hp]
      have hwrite : ∀ products,
          ∀ u ∈ (chunkWrite total products s).trace, GoodUpload u := by
        intro products u hu
        rcases List.mem_append.mp hu with hu | hu
        · exact h u hu
        · have hu' : u = updateProgress
              (min (s.processed + products.length) total) total
              (calculateProgress (min (s.processed + products.length) total)
                total) s.upload := by
            simpa using hu
          subst hu'
          constructor
          · intro hc; exact absurd hc (by simp [updateProgress])
          · intro h0 _
            have : total = 0 := h0
            rw [updateProgress]
            show calculateProgress _ total = 0
            rw [this]
            rfl
      by_cases hr : s.replay ≠ 0
      · rw [if_pos hr]
        by_cases hlen : (buildProductPayload ch).length ≤ s.replay
        · rw [if_pos hlen]; exact h
        · rw [if_neg hlen]
          by_cases hrest : (buildProductPayload ch).drop s.replay = []
          · rw [if_pos hrest]; exact h
          · rw [if_neg hrest]
            exact hwrite _
      · rw [if_neg hr]
        exact hwrite _

/-- Helper: the three progress invariants for the run body at any resolved
total. -/
lemma runWithTotal_invariants (c : Nat) (rows : List InputRow) (u0 : Upload)
    (store0 : Store) (total : Nat) :
    (importRunWithTotal c rows u0 store0 total).trace.Chain'
      (fun a b => a.progress ≤ b.progress) ∧
    (∀ u ∈ (importRunWithTotal c rows u0 store0 total).trace,
      u.totalRecords = 0 → u.status ≠ UploadStatus.completed →
        u.progress = 0) ∧
    (∀ u ∈ (importRunWithTotal c rows u0 store0 total).trace,
      u.status = UploadStatus.completed → u.progress = 100) := by
  obtain ⟨h1p, h1t, h1s, h1pr⟩ :=
    markProcessing_char total u0.processedRecords u0
  have hgood1 : GoodUpload (markProcessing total (some u0.processedRecords) u0) := by
    constructor
    · intro hc; rw [h1s] at hc; exact absurd hc (by simp)
    · intro h0 _
      rw [h1t] at h0
      rw [h1pr, h0]
      simp [calculateProgress]
  have hgoodmc : ∀ v : Upload, GoodUpload (markCompleted v) := by
    intro v
    exact ⟨fun _ => rfl, fun _ hne => absurd rfl hne⟩
  rw [importRunWithTotal]
  split
  · -- short-circuit branch: trace = [u1, markCompleted u1]
    refine ⟨?_, ?_, ?_⟩
    · refine List.chain'_cons.mpr ⟨?_, List.chain'_singleton _⟩
      show (markProcessing total (some u0.processedRecords) u0).progress ≤ 100
      rw [h1pr]
      exact calculateProgress_le_100 (Nat.min_le_right _ _)
    · intro u hu h0 hnc
      rcases List.mem_cons.mp hu with hu | hu
      · subst hu
        exact hgood1.2 h0 hnc
      · have hu' : u = markCompleted
            (markProcessing total (some u0.processedRecords) u0) := by
          simpa using hu
        subst hu'
        exact absurd rfl hnc
    · intro u hu hc
      rcases List.mem_cons.mp hu with hu | hu
      · subst hu
        exact hgood1.1 hc
      · have hu' : u = markCompleted
            (markProcessing total (some u0.processedRecords) u0) := by
          simpa using hu
        subst hu'
        rfl
  · -- loop branch
    have hT : TraceOK total
        ((iterChunks c rows).foldl (importChunkStep total)
          { replay := min u0.processedRecords total,
            processed := min u0.processedRecords total,
            upload := markProcessing total (some u0.processedRecords) u0,
            cache := some ⟨"in_progress", min u0.processedRecords total, total⟩,
            store := store0,
            trace := [markProcessing total (some u0.processedRecords) u0] }) := by
      refine foldl_traceOK total _ _
        ⟨List.chain'_singleton _, rfl, ?_, Nat.min_le_right _ _⟩
      exact h1pr
    have hG : ∀ u ∈ ((iterChunks c rows).foldl (importChunkStep total)
        { replay := min u0.processedRecords total,
          processed := min u0.processedRecords total,
          upload := markProcessing total (some u0.processedRecords) u0,
          cache := some ⟨"in_progress", min u0.processedRecords total, total⟩,
          store := store0,
          trace := [markProcessing total (some u0.processedRecords) u0] }).trace,
        GoodUpload u := by
      refine foldl_goodUpload total _ _ ?_
      intro u hu
      have hu' : u = markProcessing total (some u0.processedRecords) u0 := by
        simpa using hu
      subst hu'
      exact hgood1
    obtain ⟨hchain, hlast, hprog, hle⟩ := hT
    refine ⟨?_, ?_, ?_⟩
    · show (_ ++ [_]).Chain' _
      rw [List.chain'_append]
      refine ⟨hchain, List.chain'_singleton _, ?_⟩
      intro x hx y hy
      rw [hlast, Option.mem_some_iff] at hx
      simp only [List.head?_cons, Option.mem_some_iff] at hy
      subst hx; subst hy
      show _ ≤ (100 : ℚ)
      rw [hprog]
      exact calculateProgress_le_100 hle
    · intro u hu h0 hnc
      rcases List.mem_append.mp hu with hu | hu
      · exact (hG u hu).2 h0 hnc
      · rw [List.mem_singleton] at hu
        subst hu
        exact absurd rfl hnc
    · intro u hu hc
      rcases List.mem_append.mp hu with hu | hu
      · exact (hG u hu).1 hc
      · rw [List.mem_singleton] at hu
        subst hu
        rfl

/-- C5 (corrected): within one ingestion run the stored progress is
monotonically non-decreasing across successive checkpoint writes; a
zero-total checkpoint that is not COMPLETED stores progress 0; and every
COMPLETED checkpoint stores exactly 100 — but `mark_completed` forces 100
even when `total_records = 0`, and a checkpoint written after the final
chunk can already store 100 while the status is still PROCESSING. -/
theorem progress_trace_invariants :
    ∀ (c : Nat) (rows : List InputRow) (u0 : Upload) (store0 : Store),
      (importProductsFromCsv c rows u0 store0).trace.Chain'
        (fun a b => a.progress ≤ b.progress) ∧
      (∀ u ∈ (importProductsFromCsv c rows u0 store0).trace,
        u.totalRecords = 0 → u.status ≠ UploadStatus.completed →
          u.progress = 0) ∧
      (∀ u ∈ (importProductsFromCsv c rows u0 store0).trace,
        u.status = UploadStatus.completed → u.progress = 100) := by
  intro c rows u0 store0
  rw [importProductsFromCsv]
  exact runWithTotal_invariants c rows u0 store0 _

/-- C5 counterexample: two reachable checkpoint states violate the claim
as stated.  An empty-file run ends COMPLETED with `total_records = 0` and
stored progress 100 (not 0), because `mark_completed` writes 100
unconditionally.  A 1-row run stores progress 100 with status still
PROCESSING at the checkpoint after the final chunk, so 100 is reached
outside COMPLETED. -/
theorem progress_invariants_refuted :
    (importProductsFromCsv 1 [] freshUpload (fun _ => none)).upload.totalRecords = 0 ∧
    (importProductsFromCsv 1 [] freshUpload (fun _ => none)).upload.status =
      UploadStatus.completed ∧
    (importProductsFromCsv 1 [] freshUpload (fun _ => none)).upload.progress = 100 ∧
    ((importProductsFromCsv 1 [⟨"A", "x", ""⟩] freshUpload
      (fun _ => none)).trace.map (fun u => (u.status, u.processedRecords))) =
      [(UploadStatus.processing, 0), (UploadStatus.processing, 1),
       (UploadStatus.completed, 1)] ∧
    ((importProductsFromCsv 1 [⟨"A", "x", ""⟩] freshUpload
      (fun _ => none)).trace.map Upload.progress) = [0, 100, 100] ∧
    ((100 : ℚ) ≠ 0) := by
  refine ⟨by decide, by decide, rfl, by decide, ?_, by norm_num⟩
  have h : (importProductsFromCsv 1 [⟨"A", "x", ""⟩] freshUpload
      (fun _ => none)).trace =
      [markProcessing 1 (some 0) freshUpload,
       updateProgress 1 1 (calculateProgress 1 1)
         (markProcessing 1 (some 0) freshUpload),
       markCompleted (updateProgress 1 1 (calculateProgress 1 1)
         (markProcessing 1 (some 0) freshUpload))] := rfl
  rw [h]
  simp [markProcessing, updateProgress, markCompleted, calculateProgress,
    freshUpload]

/-- C5 witness: the first checkpoint of the empty-file run has
`total_records = 0`, is not COMPLETED, and indeed stores progress 0. -/
theorem progress_trace_invariants_witness :
    (markProcessing 0 (some 0) freshUpload).progress = 0 :=
  (progress_trace_invariants 1 [] freshUpload (fun _ => none)).2.1
    (markProcessing 0 (some 0) freshUpload) (by decide) (by decide) (by decide)

end ProductIngestion
